import Mathlib

/-!
Shallow embedding of the agent-orchestration and request-execution core of the
chatbot_soc repository: the response cache (`APICache`), the sliding-window
rate limiter (`RateLimiter`), the enhanced OpenAI client
(`createChatCompletion`), the workflow-step reducer (`UPDATE_WORKFLOW_STEP`),
and the two orchestrator loops (`MultiAgentChatHandler.generateResponse` and
`EnhancedMultiAgentChatHandler.generateEnhancedResponse`).

Timestamps are modelled as `Int` (JavaScript `Date.now()` values); JavaScript
`Map` objects are modelled as association lists that preserve insertion order,
which is exactly the iteration order a JS `Map` guarantees.
-/

namespace ChatbotSoc

/-- JS `Map.get`: first (unique) binding for a key, if any. -/
def mapLookup {V : Type} : List (String × V) → String → Option V
  | [], _ => none
  | (k, v) :: rest, key => if k = key then some v else mapLookup rest key

/-- JS `Map.delete`: removes the binding for a key (keys are unique). -/
def mapDelete {V : Type} : List (String × V) → String → List (String × V)
  | [], _ => []
  | (k, v) :: rest, key => if k = key then rest else (k, v) :: mapDelete rest key

/-- JS `Map.set`: updates an existing binding in place (keeping its insertion
position) or appends a fresh binding at the end. -/
def mapSet {V : Type} : List (String × V) → String → V → List (String × V)
  | [], key, v => [(key, v)]
  | (k, w) :: rest, key, v =>
      if k = key then (k, v) :: rest else (k, w) :: mapSet rest key v

/-! ## APICache (src/unnamed/part_003, class `APICache`) -/

/-- `CacheEntry<T>` from the source: `{ data, timestamp, expires }`. -/
structure CacheEntry (V : Type) where
  data : V
  timestamp : Int
  expires : Int
deriving DecidableEq

/-- The `APICache` object state: an insertion-ordered map plus `maxSize`.
The source fixes `maxSize = 100`. -/
structure APICache (V : Type) where
  cache : List (String × CacheEntry V)
  maxSize : Nat
deriving DecidableEq

/-- `defaultTTL = 5 * 60 * 1000` (five minutes, in milliseconds). -/
def APICache.defaultTTL : Int := 5 * 60 * 1000

/-- A freshly constructed `new APICache()`: empty map, `maxSize = 100`. -/
def APICache.empty (V : Type) : APICache V := ⟨[], 100⟩

/-- `APICache.set(key, data, ttl)`, evaluated at time `now` (`Date.now()`):
if `cache.size >= maxSize`, delete `cache.keys().next().value` (the
first-inserted key; on an empty map the delete is a no-op), then store
`{ data, timestamp: now, expires: now + ttl }` under `key`. -/
def APICache.set {V : Type} (c : APICache V) (key : String) (data : V)
    (ttl now : Int) : APICache V :=
  let cache1 :=
    if c.maxSize ≤ c.cache.length then
      match c.cache with
      | [] => c.cache
      | (firstKey, _) :: _ => mapDelete c.cache firstKey
    else c.cache
  { c with cache := mapSet cache1 key ⟨data, now, now + ttl⟩ }

/-- `APICache.get(key)` at time `now`: `null` on a missing key; on an expired
entry (`now > expires`) the entry is deleted and `null` returned; otherwise
the stored data is returned and the map is untouched. Returns the value
together with the (possibly mutated) cache. -/
def APICache.get {V : Type} (c : APICache V) (key : String) (now : Int) :
    Option V × APICache V :=
  match mapLookup c.cache key with
  | none => (none, c)
  | some entry =>
      if entry.expires < now then (none, { c with cache := mapDelete c.cache key })
      else (some entry.data, c)

/-- `APICache.clear()`. -/
def APICache.clear {V : Type} (c : APICache V) : APICache V := { c with cache := [] }

/-! ## RateLimiter (src/unnamed/part_003, class `RateLimiter`) -/

/-- The `RateLimiter` object state: per-identifier timestamp lists plus the
configured window and maximum. The source fixes `windowMs = 60000` and
`maxRequests = 60`. -/
structure RateLimiter where
  requests : List (String × List Int)
  windowMs : Int
  maxRequests : Nat
deriving DecidableEq

/-- A freshly constructed `new RateLimiter()`. -/
def RateLimiter.empty : RateLimiter := ⟨[], 60000, 60⟩

/-- `RateLimiter.canMakeRequest(identifier)` at time `now`: prune timestamps
`time ≤ now - windowMs`, store the pruned list back, and admit iff fewer than
`maxRequests` timestamps survive. Returns the decision with the mutated
limiter. -/
def RateLimiter.canMakeRequest (rl : RateLimiter) (identifier : String)
    (now : Int) : Bool × RateLimiter :=
  let windowStart := now - rl.windowMs
  let requestTimes := (mapLookup rl.requests identifier).getD []
  let validRequests := requestTimes.filter (fun time => windowStart < time)
  (decide (validRequests.length < rl.maxRequests),
   { rl with requests := mapSet rl.requests identifier validRequests })

/-- `RateLimiter.recordRequest(identifier)` at time `now`: push `now` onto the
identifier's timestamp list (created empty when absent). -/
def RateLimiter.recordRequest (rl : RateLimiter) (identifier : String)
    (now : Int) : RateLimiter :=
  let requestTimes := (mapLookup rl.requests identifier).getD []
  { rl with requests := mapSet rl.requests identifier (requestTimes ++ [now]) }

/-! ### Association-list lemmas -/

theorem mapLookup_mapSet_self {V : Type} (l : List (String × V)) (key : String)
    (v : V) : mapLookup (mapSet l key v) key = some v := by
  induction l with
  | nil => simp [mapSet, mapLookup]
  | cons head tail ih =>
      obtain ⟨k, w⟩ := head
      by_cases hk : k = key
      · simp [mapSet, hk, mapLookup]
      · simp [mapSet, hk, mapLookup, ih]

theorem mapSet_of_not_mem {V : Type} (l : List (String × V)) (key : String)
    (v : V) (h : key ∉ l.map Prod.fst) : mapSet l key v = l ++ [(key, v)] := by
  induction l with
  | nil => simp [mapSet]
  | cons head tail ih =>
      obtain ⟨k, w⟩ := head
      simp only [List.map_cons, List.mem_cons] at h
      push_neg at h
      have hk : k ≠ key := fun hkk => h.1 hkk.symm
      simp [mapSet, hk, ih h.2]

/-! ### C4: set/get round-trip with TTL -/

/-- The key stored by `set` is immediately visible with the written entry. -/
theorem mapLookup_after_set {V : Type} (c : APICache V) (key : String) (v : V)
    (ttl now : Int) :
    mapLookup (c.set key v ttl now).cache key = some ⟨v, now, now + ttl⟩ := by
  unfold APICache.set
  exact mapLookup_mapSet_self _ key _

theorem apiCache_get_after_set_live {V : Type} (c : APICache V) (key : String)
    (v : V) (ttl now tLive : Int) (hLive : tLive < now + ttl) :
    ((c.set key v ttl now).get key tLive).1 = some v := by
  unfold APICache.get
  rw [mapLookup_after_set]
  simp only
  rw [if_neg (by omega)]

theorem apiCache_get_after_set_expired {V : Type} (c : APICache V) (key : String)
    (v : V) (ttl now tLate : Int) (hLate : now + ttl < tLate) :
    ((c.set key v ttl now).get key tLate).1 = none := by
  unfold APICache.get
  rw [mapLookup_after_set]
  simp only
  rw [if_pos (by omega)]

/-- C4: For every key `k`, value `v` and TTL `t`, a `get(k)` performed after
`set(k, v, t)` at a time before the TTL has expired (`now < creation + t`)
returns exactly the stored value `v` unchanged; at any time after the expiry
time has passed, `get(k)` no longer returns the entry. -/
theorem apiCache_set_get_roundtrip {V : Type} (c : APICache V) (key : String)
    (v : V) (ttl now tLive tLate : Int)
    (hLive : tLive < now + ttl) (hLate : now + ttl < tLate) :
    ((c.set key v ttl now).get key tLive).1 = some v ∧
    ((c.set key v ttl now).get key tLate).1 = none :=
  ⟨apiCache_get_after_set_live c key v ttl now tLive hLive,
   apiCache_get_after_set_expired c key v ttl now tLate hLate⟩

/-- Witness for C4 at a concrete input: store 7 under "k" at time 0 with a
1000 ms TTL; reading at 500 returns 7, reading at 2000 returns nothing. -/
theorem apiCache_set_get_roundtrip_witness :
    (((APICache.empty Nat).set "k" 7 1000 0).get "k" 500).1 = some 7 ∧
    (((APICache.empty Nat).set "k" 7 1000 0).get "k" 2000).1 = none :=
  apiCache_set_get_roundtrip (APICache.empty Nat) "k" 7 1000 0 500 2000
    (by decide) (by decide)

/-! ### C2: bounded size and insertion-order eviction -/

/-- A sequence of `set` operations: each element is (key, data, ttl, now). -/
def APICache.setAll {V : Type} (c : APICache V) :
    List (String × V × Int × Int) → APICache V
  | [] => c
  | (key, data, ttl, now) :: rest => (c.set key data ttl now).setAll rest

/-- A `set` with a fresh key on a cache strictly below its bound appends the
key at the end of the insertion order. -/
theorem apiCache_set_fresh_keys {V : Type} (c : APICache V) (key : String)
    (v : V) (ttl now : Int) (hroom : c.cache.length < c.maxSize)
    (hfresh : key ∉ c.cache.map Prod.fst) :
    (c.set key v ttl now).cache.map Prod.fst = c.cache.map Prod.fst ++ [key] := by
  unfold APICache.set
  rw [if_neg (by omega)]
  show (mapSet c.cache key ⟨v, now, now + ttl⟩).map Prod.fst = _
  rw [mapSet_of_not_mem _ _ _ hfresh]
  simp

/-- A `set` with a fresh key on a cache at (or above) its bound drops the
first-inserted key and appends the new key at the end. -/
theorem apiCache_set_evicts_head {V : Type} (c : APICache V) (key : String)
    (v : V) (ttl now : Int) (k0 : String) (e0 : CacheEntry V)
    (rest : List (String × CacheEntry V))
    (hshape : c.cache = (k0, e0) :: rest) (hfull : c.maxSize ≤ c.cache.length)
    (hfresh : key ∉ c.cache.map Prod.fst) :
    (c.set key v ttl now).cache.map Prod.fst = rest.map Prod.fst ++ [key] := by
  unfold APICache.set
  rw [if_pos hfull, hshape]
  show (mapSet (mapDelete ((k0, e0) :: rest) k0) key ⟨v, now, now + ttl⟩).map Prod.fst = _
  have hdel : mapDelete ((k0, e0) :: rest) k0 = rest := by simp [mapDelete]
  rw [hdel]
  rw [hshape] at hfresh
  simp only [List.map_cons, List.mem_cons] at hfresh
  push_neg at hfresh
  rw [mapSet_of_not_mem _ _ _ hfresh.2]
  simp

/-- Filling a cache with fresh, pairwise-distinct keys while room remains
appends them in order. -/
theorem apiCache_setAll_below_bound {V : Type} (c : APICache V)
    (ops : List (String × V × Int × Int))
    (hnodup : (c.cache.map Prod.fst ++ ops.map Prod.fst).Nodup)
    (hroom : c.cache.length + ops.length ≤ c.maxSize) :
    (c.setAll ops).cache.map Prod.fst = c.cache.map Prod.fst ++ ops.map Prod.fst := by
  induction ops generalizing c with
  | nil => simp [APICache.setAll]
  | cons op rest ih =>
      obtain ⟨key, v, ttl, now⟩ := op
      simp only [List.map_cons, List.length_cons] at hnodup hroom
      have hfresh : key ∉ c.cache.map Prod.fst := by
        intro hmem
        exact (List.disjoint_of_nodup_append hnodup) hmem (List.mem_cons_self _ _)
      have hroom1 : c.cache.length < c.maxSize := by omega
      have hkeys := apiCache_set_fresh_keys c key v ttl now hroom1 hfresh
      unfold APICache.setAll
      have hlen : (c.set key v ttl now).cache.length = c.cache.length + 1 := by
        have := congrArg List.length hkeys
        simpa using this
      have hnodup2 :
          ((c.set key v ttl now).cache.map Prod.fst ++ rest.map Prod.fst).Nodup := by
        rw [hkeys]
        simpa using hnodup
      have hms : (c.set key v ttl now).maxSize = c.maxSize := rfl
      have := ih (c.set key v ttl now) hnodup2 (by omega)
      rw [this, hkeys]
      simp

theorem apiCache_setAll_append {V : Type} (c : APICache V)
    (l1 l2 : List (String × V × Int × Int)) :
    c.setAll (l1 ++ l2) = (c.setAll l1).setAll l2 := by
  induction l1 generalizing c with
  | nil => simp [APICache.setAll]
  | cons op rest ih =>
      obtain ⟨key, v, ttl, now⟩ := op
      simp [APICache.setAll, ih]

theorem apiCache_setAll_maxSize {V : Type} (c : APICache V)
    (ops : List (String × V × Int × Int)) :
    (c.setAll ops).maxSize = c.maxSize := by
  induction ops generalizing c with
  | nil => rfl
  | cons op rest ih =>
      obtain ⟨key, v, ttl, now⟩ := op
      rw [APICache.setAll, ih]
      rfl

/-- C2: starting from a fresh cache (`maxSize = 100`), a sequence of 101 `set`
operations with pairwise-distinct keys keeps the cache at no more than 100
entries after every operation, and the final key sequence is exactly the
insertion order with the first-inserted key evicted (`drop 1`): insertion-order
eviction removes the oldest-inserted entry first. -/
theorem apiCache_eviction_bound {V : Type} (ops : List (String × V × Int × Int))
    (hlen : ops.length = 101) (hnodup : (ops.map Prod.fst).Nodup) :
    (∀ k, k ≤ ops.length →
      ((APICache.empty V).setAll (ops.take k)).cache.length ≤ 100) ∧
    ((APICache.empty V).setAll ops).cache.map Prod.fst =
      (ops.map Prod.fst).drop 1 := by
  have hbelow : ∀ k, k ≤ 100 →
      ((APICache.empty V).setAll (ops.take k)).cache.map Prod.fst =
        (ops.take k).map Prod.fst := by
    intro k hk
    have hsub : ((ops.take k).map Prod.fst).Nodup := by
      have hs : List.Sublist ((ops.take k).map Prod.fst) (ops.map Prod.fst) :=
        List.Sublist.map Prod.fst (List.take_sublist k ops)
      exact hnodup.sublist hs
    have hklen : (ops.take k).length ≤ 100 := by
      rw [List.length_take]; omega
    have h := apiCache_setAll_below_bound (APICache.empty V) (ops.take k)
      (by simpa [APICache.empty] using hsub)
      (by simpa [APICache.empty] using hklen)
    simpa [APICache.empty] using h
  -- decompose the run: 100 fills, then the evicting 101st set
  obtain ⟨op101, hdrop⟩ : ∃ op, ops.drop 100 = [op] := by
    have : (ops.drop 100).length = 1 := by rw [List.length_drop, hlen]
    exact List.length_eq_one.mp this
  obtain ⟨key101, v101, ttl101, now101⟩ := op101
  have hsplit : ops = ops.take 100 ++ [(key101, v101, ttl101, now101)] := by
    conv_lhs => rw [← List.take_append_drop 100 ops]
    rw [hdrop]
  have h100 := hbelow 100 (le_refl 100)
  have hlen100 : ((APICache.empty V).setAll (ops.take 100)).cache.length = 100 := by
    have := congrArg List.length h100
    simpa [List.length_take, hlen] using this
  have hms : ((APICache.empty V).setAll (ops.take 100)).maxSize = 100 := by
    rw [apiCache_setAll_maxSize]; rfl
  have hfresh : key101 ∉ ((APICache.empty V).setAll (ops.take 100)).cache.map Prod.fst := by
    rw [h100]
    intro hmem
    have : (ops.map Prod.fst).Nodup := hnodup
    rw [hsplit] at this
    simp only [List.map_append, List.map_cons, List.map_nil] at this
    exact (List.disjoint_of_nodup_append this) hmem (by simp)
  obtain ⟨head, tail, hshape⟩ :
      ∃ h t, ((APICache.empty V).setAll (ops.take 100)).cache = h :: t := by
    cases hc : ((APICache.empty V).setAll (ops.take 100)).cache with
    | nil => rw [hc] at hlen100; simp at hlen100
    | cons h t => exact ⟨h, t, rfl⟩
  obtain ⟨k0, e0⟩ := head
  have hfinal :
      ((APICache.empty V).setAll ops).cache.map Prod.fst =
        tail.map Prod.fst ++ [key101] := by
    conv_lhs => rw [hsplit]
    rw [apiCache_setAll_append]
    show ((((APICache.empty V).setAll (ops.take 100)).set key101 v101 ttl101
      now101).setAll []).cache.map Prod.fst = _
    rw [APICache.setAll]
    exact apiCache_set_evicts_head _ key101 v101 ttl101 now101 k0 e0 tail hshape
      (by omega) hfresh
  have htailkeys : tail.map Prod.fst = ((ops.take 100).map Prod.fst).drop 1 := by
    have : ((k0, e0) :: tail).map Prod.fst = (ops.take 100).map Prod.fst := by
      rw [← hshape, h100]
    have h2 := congrArg (List.drop 1) this
    simpa using h2
  constructor
  · intro k hk
    by_cases hk100 : k ≤ 100
    · have h1 := congrArg List.length (hbelow k hk100)
      simp only [List.length_map] at h1
      rw [h1, List.length_take]
      omega
    · have hk101 : k = 101 := by omega
      have htake : ops.take k = ops := by
        apply List.take_of_length_le; omega
      rw [htake]
      have h1 := congrArg List.length hfinal
      simp only [List.length_map, List.length_append, List.length_cons,
        List.length_nil] at h1
      have h2 := congrArg List.length htailkeys
      simp only [List.length_map, List.length_drop, List.length_take] at h2
      omega
  · have hlen1 : 1 ≤ ((ops.take 100).map Prod.fst).length := by
      simp only [List.length_map, List.length_take]
      omega
    rw [hfinal, htailkeys]
    conv_rhs => rw [hsplit]
    simp only [List.map_append, List.map_cons, List.map_nil]
    rw [List.drop_append_of_le_length hlen1]

/-- Concrete 101-operation run for the C2 witness: keys are the distinct
one-character strings with code points 100..200. -/
def evictionWitnessOps : List (String × Nat × Int × Int) :=
  (List.range 101).map (fun i => (String.mk [Char.ofNat (100 + i)], i, 1000, 0))

/-- Witness for C2 at a concrete input: after 101 distinct inserts the cache
keys are exactly the last 100 inserted keys, in insertion order. -/
theorem apiCache_eviction_bound_witness :
    ((APICache.empty Nat).setAll evictionWitnessOps).cache.map Prod.fst =
      (evictionWitnessOps.map Prod.fst).drop 1 :=
  (apiCache_eviction_bound evictionWitnessOps (by decide) (by decide)).2

/-! ## EnhancedOpenAIClient (src/unnamed/part_003) -/

/-- One chat message `{ role, content }`. The content is modelled as its list
of UTF-16 code units (JavaScript string semantics; `btoa` requires each unit
to be below 256). -/
structure ChatMessage where
  role : String
  content : List Nat
deriving DecidableEq

/-- The standard base64 alphabet used by `btoa`. -/
def base64Alphabet : List Char :=
  "ABCDEFGHIJKLMNOPQRSTUVWXYZabcdefghijklmnopqrstuvwxyz0123456789+/".toList

/-- Character of the base64 alphabet at a 6-bit index. -/
def base64Char (i : Nat) : Char := base64Alphabet.getD i 'A'

/-- `btoa`: base64-encode a byte sequence, three bytes per four output
characters, padding with `=`. -/
def base64Encode : List Nat → List Char
  | [] => []
  | [b1] => [base64Char (b1 / 4), base64Char (b1 % 4 * 16), '=', '=']
  | [b1, b2] =>
      [base64Char (b1 / 4), base64Char (b1 % 4 * 16 + b2 / 16),
       base64Char (b2 % 16 * 4), '=']
  | b1 :: b2 :: b3 :: rest =>
      base64Char (b1 / 4) :: base64Char (b1 % 4 * 16 + b2 / 16) ::
        base64Char (b2 % 16 * 4 + b3 / 64) :: base64Char (b3 % 64) ::
        base64Encode rest

/-- `messages.map(m => m.content).join('|')`: message contents joined with
the `|` character (code unit 124); roles are not consulted. -/
def joinContents (messages : List ChatMessage) : List Nat :=
  List.intercalate [124] (messages.map ChatMessage.content)

/-- `generateCacheKey(messages, model, temperature)`:
`chat:$\x7bmodel\x7d:$\x7btemperature\x7d:` followed by the first 50
characters of `btoa` of the joined contents. `temperature` is taken as its
rendered decimal string. -/
def generateCacheKey (messages : List ChatMessage) (model temperature : String) :
    String :=
  "chat:" ++ model ++ ":" ++ temperature ++ ":" ++
    String.mk ((base64Encode (joinContents messages)).take 50)

/-- A provider failure as observed by `handleError`: HTTP status (0 when the
failure carries none), error code string, and message. -/
structure ProviderError where
  status : Int
  code : String
  message : String
deriving DecidableEq

/-- The classified errors produced by `handleError` (src/unnamed/part_003),
together with the local admission-refusal error thrown by
`createChatCompletion` before enqueueing. -/
inductive APIError
  | rateLimitedLocal
  | rateLimitedUpstream
  | unauthorized
  | providerUnavailable
  | networkError
  | unknown (message : String)
deriving DecidableEq

/-- `handleError(error)`: classify a provider failure by status then code. -/
def handleError (e : ProviderError) : APIError :=
  if e.status = 429 then .rateLimitedUpstream
  else if e.status = 401 then .unauthorized
  else if 500 ≤ e.status then .providerUnavailable
  else if e.code = "ENOTFOUND" ∨ e.code = "ECONNREFUSED" then .networkError
  else .unknown e.message

/-- The user-facing message text carried by each classified error, exactly as
produced by `handleError` and by the local rate-limit throw. -/
def APIError.errorText : APIError → String
  | .rateLimitedLocal =>
      "Rate limit exceeded. Please wait before making another request."
  | .rateLimitedUpstream =>
      "Rate limit exceeded. Please wait a moment before trying again."
  | .unauthorized => "Invalid API key. Please check your OpenAI configuration."
  | .providerUnavailable =>
      "OpenAI service is temporarily unavailable. Please try again later."
  | .networkError =>
      "Network connection failed. Please check your internet connection."
  | .unknown message => message

/-- What the provider does when actually invoked for one request. -/
inductive ProviderResult (V : Type)
  | ok (response : V)
  | err (e : ProviderError)
deriving DecidableEq

/-- The mutable state of one `EnhancedOpenAIClient` instance: its `APICache`
and its `RateLimiter`. `V` stands for the response object
`{ id, choices, usage, model }` stored and cached verbatim. -/
structure EnhancedOpenAIClient (V : Type) where
  cache : APICache V
  rateLimiter : RateLimiter
deriving DecidableEq

/-- A freshly constructed client: empty cache, empty rate-limiter state. -/
def EnhancedOpenAIClient.fresh (V : Type) : EnhancedOpenAIClient V :=
  ⟨APICache.empty V, RateLimiter.empty⟩

/-- The fixed rate-limiter identity used by `createChatCompletion`. -/
def chatIdentifier : String := "openai-chat"

/-- Parameters of `createChatCompletion` (defaults already applied):
`model = "gpt-4o-mini"`, `temperature = 0.7`, `useCache = true`. -/
structure ChatParams where
  model : String
  messages : List ChatMessage
  temperature : String
  useCache : Bool
deriving DecidableEq

/-- How one awaited `createChatCompletion` call resolves. -/
inductive ChatOutcome (V : Type)
  | fromCache (response : V)
  | success (response : V)
  | rateLimited
  | failure (e : APIError)
deriving DecidableEq

/-- Result of one awaited `createChatCompletion` call: its outcome, the
client state afterwards, how many outbound provider invocations the call
performed, and whether a request closure was pushed onto the queue. -/
structure ChatResult (V : Type) where
  outcome : ChatOutcome V
  client : EnhancedOpenAIClient V
  providerCalls : Nat
  enqueued : Bool
deriving DecidableEq

/-- `createChatCompletion(params)` evaluated at time `now` and awaited to
completion, with `provider` the behaviour of the outbound
`client.chat.completions.create` call if it is reached. Order of effects, as
in the source: (1) compute the cache key; (2) if `useCache`, probe the cache
and return a hit immediately; (3) check the rate limiter and throw the local
rate-limit error on refusal, before constructing the promise; (4) otherwise
enqueue the request; the drained queue records the timestamp, invokes the
provider, caches the response on success (`useCache` only), and resolves or
rejects with the classified error. -/
def createChatCompletion {V : Type} (client : EnhancedOpenAIClient V)
    (p : ChatParams) (now : Int) (provider : ProviderResult V) : ChatResult V :=
  let cacheKey := generateCacheKey p.messages p.model p.temperature
  let probe : Option V × APICache V :=
    if p.useCache then client.cache.get cacheKey now else (none, client.cache)
  match probe with
  | (some cached, cache1) => ⟨.fromCache cached, ⟨cache1, client.rateLimiter⟩, 0, false⟩
  | (none, cache1) =>
      let check := client.rateLimiter.canMakeRequest chatIdentifier now
      if check.1 = false then ⟨.rateLimited, ⟨cache1, check.2⟩, 0, false⟩
      else
        let rl2 := check.2.recordRequest chatIdentifier now
        match provider with
        | .ok v =>
            let cache2 :=
              if p.useCache then cache1.set cacheKey v APICache.defaultTTL now
              else cache1
            ⟨.success v, ⟨cache2, rl2⟩, 1, true⟩
        | .err e => ⟨.failure (handleError e), ⟨cache1, rl2⟩, 1, true⟩

/-- A sequence of `createChatCompletion` calls, each awaited to completion
before the next is submitted (the orchestrator's usage pattern). Each element
supplies the call's parameters, its submission time, and the provider
behaviour for it. -/
def runSequential {V : Type} (client : EnhancedOpenAIClient V) :
    List (ChatParams × Int × ProviderResult V) →
      List (ChatOutcome V) × EnhancedOpenAIClient V
  | [] => ([], client)
  | (p, t, pr) :: rest =>
      let r := createChatCompletion client p t pr
      let tailRun := runSequential r.client rest
      (r.outcome :: tailRun.1, tailRun.2)

/-! ### C3: cache hits bypass the rate limiter -/

/-- A live `get` hit leaves the cache untouched. -/
theorem apiCache_get_some {V : Type} (c : APICache V) (key : String) (now : Int)
    (v : V) (h : (c.get key now).1 = some v) : c.get key now = (some v, c) := by
  unfold APICache.get at h ⊢
  cases hl : mapLookup c.cache key with
  | none => rw [hl] at h; simp at h
  | some entry =>
      rw [hl] at h
      simp only at h ⊢
      by_cases hexp : entry.expires < now
      · rw [if_pos hexp] at h; simp at h
      · rw [if_neg hexp] at h ⊢
        simp only [Option.some.injEq] at h
        rw [h]

/-- A call whose key has a live cache entry returns it immediately: the
rate limiter is never consulted, nothing is enqueued, no provider call is
made, and the client state is untouched. -/
theorem createChatCompletion_cacheHit {V : Type}
    (client : EnhancedOpenAIClient V) (p : ChatParams) (now : Int)
    (pr : ProviderResult V) (v : V) (huse : p.useCache = true)
    (hhit : (client.cache.get
      (generateCacheKey p.messages p.model p.temperature) now).1 = some v) :
    createChatCompletion client p now pr =
      ⟨.fromCache v, ⟨client.cache, client.rateLimiter⟩, 0, false⟩ := by
  have hg := apiCache_get_some _ _ _ _ hhit
  unfold createChatCompletion
  rw [huse]
  simp only [if_true, hg]

/-- On a fresh client, a cache-eligible call that succeeds, followed by a call
whose parameters produce the same cache key within the default TTL, performs
exactly one provider invocation: the second call is a cache hit. -/
theorem fresh_call_then_hit {V : Type} (p1 p2 : ChatParams) (v : V)
    (t1 t2 : Int) (pr2 : ProviderResult V)
    (h1 : p1.useCache = true) (h2 : p2.useCache = true)
    (hkey : generateCacheKey p2.messages p2.model p2.temperature =
      generateCacheKey p1.messages p1.model p1.temperature)
    (httl : t2 - t1 < APICache.defaultTTL) :
    (createChatCompletion (EnhancedOpenAIClient.fresh V) p1 t1 (.ok v)).outcome
        = .success v ∧
    (createChatCompletion (EnhancedOpenAIClient.fresh V) p1 t1 (.ok v)).providerCalls
        = 1 ∧
    (createChatCompletion
        ((createChatCompletion (EnhancedOpenAIClient.fresh V) p1 t1 (.ok v)).client)
        p2 t2 pr2).outcome = .fromCache v ∧
    (createChatCompletion
        ((createChatCompletion (EnhancedOpenAIClient.fresh V) p1 t1 (.ok v)).client)
        p2 t2 pr2).providerCalls = 0 := by
  have hfirst :
      createChatCompletion (EnhancedOpenAIClient.fresh V) p1 t1 (.ok v) =
        ⟨.success v,
         ⟨(APICache.empty V).set
            (generateCacheKey p1.messages p1.model p1.temperature) v
            APICache.defaultTTL t1,
          RateLimiter.empty.recordRequest chatIdentifier t1⟩, 1, true⟩ := by
    unfold createChatCompletion
    simp only [h1, if_true]
    rfl
  have hhit :
      ((createChatCompletion (EnhancedOpenAIClient.fresh V) p1 t1
          (.ok v)).client.cache.get
        (generateCacheKey p2.messages p2.model p2.temperature) t2).1 = some v := by
    rw [hfirst, hkey]
    exact apiCache_get_after_set_live _ _ _ _ _ _ (by omega)
  have hsecond := createChatCompletion_cacheHit
    ((createChatCompletion (EnhancedOpenAIClient.fresh V) p1 t1 (.ok v)).client)
    p2 t2 pr2 v h2 hhit
  refine ⟨?_, ?_, ?_, ?_⟩
  · rw [hfirst]
  · rw [hfirst]
  · rw [hsecond]
  · rw [hsecond]

/-- C3: a cache-eligible call whose key has a live cache entry returns the
cached response immediately — the rate limiter is not consulted (the client
state, including the limiter, is unchanged even if the limiter would refuse),
nothing is enqueued, and no provider call happens; consequently two calls
with identical model, temperature and messages within the TTL on a fresh
client perform exactly one provider invocation. -/
theorem cacheHit_never_rateLimited {V : Type}
    (client : EnhancedOpenAIClient V) (p : ChatParams) (now : Int)
    (pr : ProviderResult V) (v : V)
    (q : ChatParams) (w : V) (t1 t2 : Int) (pr2 : ProviderResult V)
    (huse : p.useCache = true)
    (hhit : (client.cache.get
      (generateCacheKey p.messages p.model p.temperature) now).1 = some v)
    (hq : q.useCache = true) (httl : t2 - t1 < APICache.defaultTTL) :
    ((createChatCompletion client p now pr).outcome = .fromCache v ∧
     (createChatCompletion client p now pr).client.rateLimiter = client.rateLimiter ∧
     (createChatCompletion client p now pr).client.cache = client.cache ∧
     (createChatCompletion client p now pr).providerCalls = 0 ∧
     (createChatCompletion client p now pr).enqueued = false) ∧
    ((createChatCompletion (EnhancedOpenAIClient.fresh V) q t1 (.ok w)).providerCalls
        = 1 ∧
     (createChatCompletion
        ((createChatCompletion (EnhancedOpenAIClient.fresh V) q t1 (.ok w)).client)
        q t2 pr2).outcome = .fromCache w ∧
     (createChatCompletion
        ((createChatCompletion (EnhancedOpenAIClient.fresh V) q t1 (.ok w)).client)
        q t2 pr2).providerCalls = 0) := by
  have hA := createChatCompletion_cacheHit client p now pr v huse hhit
  have hB := fresh_call_then_hit q q w t1 t2 pr2 hq hq rfl httl
  exact ⟨⟨by rw [hA], by rw [hA], by rw [hA], by rw [hA], by rw [hA]⟩,
    hB.2.1, hB.2.2.1, hB.2.2.2⟩

/-- A concrete client whose cache holds a live entry for the trivial request
key and whose rate limiter would also still admit requests. -/
def hitWitnessClient : EnhancedOpenAIClient Nat :=
  ⟨⟨[("chat:m:t:", ⟨5, 0, 10⟩)], 100⟩, ⟨[("openai-chat", [])], 60000, 60⟩⟩

/-- Witness for C3 at concrete inputs: a live entry is returned with the
limiter untouched, and an identical pair of calls on a fresh client yields
one provider invocation then a cache hit. -/
theorem cacheHit_never_rateLimited_witness :
    ((createChatCompletion hitWitnessClient ⟨"m", [], "t", true⟩ 3
        (.ok 9)).outcome = .fromCache 5 ∧
     (createChatCompletion hitWitnessClient ⟨"m", [], "t", true⟩ 3
        (.ok 9)).client.rateLimiter = hitWitnessClient.rateLimiter ∧
     (createChatCompletion hitWitnessClient ⟨"m", [], "t", true⟩ 3
        (.ok 9)).client.cache = hitWitnessClient.cache ∧
     (createChatCompletion hitWitnessClient ⟨"m", [], "t", true⟩ 3
        (.ok 9)).providerCalls = 0 ∧
     (createChatCompletion hitWitnessClient ⟨"m", [], "t", true⟩ 3
        (.ok 9)).enqueued = false) ∧
    ((createChatCompletion (EnhancedOpenAIClient.fresh Nat)
        ⟨"m", [], "t", true⟩ 0 (.ok 7)).providerCalls = 1 ∧
     (createChatCompletion
        ((createChatCompletion (EnhancedOpenAIClient.fresh Nat)
          ⟨"m", [], "t", true⟩ 0 (.ok 7)).client)
        ⟨"m", [], "t", true⟩ 100 (.err ⟨500, "", ""⟩)).outcome = .fromCache 7 ∧
     (createChatCompletion
        ((createChatCompletion (EnhancedOpenAIClient.fresh Nat)
          ⟨"m", [], "t", true⟩ 0 (.ok 7)).client)
        ⟨"m", [], "t", true⟩ 100 (.err ⟨500, "", ""⟩)).providerCalls = 0) :=
  cacheHit_never_rateLimited hitWitnessClient ⟨"m", [], "t", true⟩ 3 (.ok 9) 5
    ⟨"m", [], "t", true⟩ 7 0 100 (.err ⟨500, "", ""⟩)
    (by decide) (by decide) (by decide) (by decide)

/-! ### C9: the rate-limit timestamp is recorded before the provider call -/

/-- C9 (amended): for every admitted, non-cached request, the queued request
records a timestamp against the rate limiter before invoking the provider,
so the limiter ends in the recorded state whether the provider call succeeds
or fails — a failed provider call still consumes rate-limit budget. -/
theorem recordRequest_regardless_of_outcome {V : Type}
    (client : EnhancedOpenAIClient V) (p : ChatParams) (now : Int)
    (pr : ProviderResult V)
    (hmiss : p.useCache = true →
      (client.cache.get
        (generateCacheKey p.messages p.model p.temperature) now).1 = none)
    (hcanmk : (client.rateLimiter.canMakeRequest chatIdentifier now).1 = true) :
    (createChatCompletion client p now pr).client.rateLimiter =
      ((client.rateLimiter.canMakeRequest chatIdentifier now).2).recordRequest
        chatIdentifier now ∧
    (createChatCompletion client p now pr).providerCalls = 1 := by
  unfold createChatCompletion
  by_cases hu : p.useCache = true
  · rcases hget : client.cache.get
        (generateCacheKey p.messages p.model p.temperature) now with ⟨first, snd⟩
    have hf : first = none := by
      have h := hmiss hu; rw [hget] at h; exact h
    subst hf
    rw [hu]
    simp only [if_true, hget, hcanmk]
    cases pr <;> simp
  · have hu2 : p.useCache = false := by
      cases hb : p.useCache
      · rfl
      · exact absurd hb hu
    rw [hu2]
    simp only [Bool.false_eq_true, if_false, hcanmk]
    cases pr <;> simp

/-- Witness for C9 at a concrete input (provider succeeds). -/
theorem recordRequest_regardless_of_outcome_witness :
    (createChatCompletion (EnhancedOpenAIClient.fresh Nat)
        ⟨"m", [], "t", true⟩ 0 (.ok 7)).client.rateLimiter =
      (((EnhancedOpenAIClient.fresh Nat).rateLimiter.canMakeRequest
        chatIdentifier 0).2).recordRequest chatIdentifier 0 ∧
    (createChatCompletion (EnhancedOpenAIClient.fresh Nat)
        ⟨"m", [], "t", true⟩ 0 (.ok 7)).providerCalls = 1 :=
  recordRequest_regardless_of_outcome (EnhancedOpenAIClient.fresh Nat)
    ⟨"m", [], "t", true⟩ 0 (.ok 7) (by decide) (by decide)

/-- Counterexample to C9 as stated: on a fresh client, a non-cached request
whose provider call fails with HTTP 500 is rejected with the classified
error, yet the rate-limiter window for the caller identity is no longer
empty — the timestamp was recorded despite the failure. -/
theorem recordRequest_on_failure_counterexample :
    (createChatCompletion (EnhancedOpenAIClient.fresh Nat)
        ⟨"gpt-4o-mini", [], "0.7", false⟩ 0 (.err ⟨500, "", ""⟩)).outcome =
      .failure .providerUnavailable ∧
    (createChatCompletion (EnhancedOpenAIClient.fresh Nat)
        ⟨"gpt-4o-mini", [], "0.7", false⟩ 0
        (.err ⟨500, "", ""⟩)).client.rateLimiter.requests =
      [("openai-chat", [0])] ∧
    (EnhancedOpenAIClient.fresh Nat).rateLimiter.requests = [] := by
  refine ⟨by decide, by decide, by decide⟩

/-! ### C1: sliding-window admission, 60 per minute -/

theorem mapSet_lookup_self {V : Type} (l : List (String × V)) (k : String)
    (v : V) (h : mapLookup l k = some v) : mapSet l k v = l := by
  induction l with
  | nil => simp [mapLookup] at h
  | cons head tail ih =>
      obtain ⟨k0, v0⟩ := head
      by_cases hk : k0 = k
      · rw [mapLookup, if_pos hk] at h
        simp only [Option.some.injEq] at h
        rw [mapSet, if_pos hk, hk, h]
      · rw [mapLookup, if_neg hk] at h
        rw [mapSet, if_neg hk, ih h]

theorem mapSet_mapSet {V : Type} (l : List (String × V)) (k : String)
    (v w : V) : mapSet (mapSet l k v) k w = mapSet l k w := by
  induction l with
  | nil => simp [mapSet]
  | cons head tail ih =>
      obtain ⟨k0, v0⟩ := head
      by_cases hk : k0 = k
      · simp [mapSet, hk]
      · simp [mapSet, hk, ih]

theorem filter_keep_all {α : Type} (pred : α → Bool) (l : List α)
    (h : ∀ a ∈ l, pred a = true) : l.filter pred = l := by
  induction l with
  | nil => rfl
  | cons head tail ih =>
      rw [List.filter_cons, if_pos (h head (by simp))]
      rw [ih (fun a ha => h a (by simp [ha]))]

/-- One non-cached, admitted, successful call: the response is returned, the
cache is untouched (`useCache = false`), and the submission time is appended
to the caller identity's window. -/
theorem createChatCompletion_noCache_ok {V : Type} (cache : APICache V)
    (reqs : List (String × List Int)) (p : ChatParams) (t : Int) (v : V)
    (recorded : List Int) (hnc : p.useCache = false)
    (hlk : (mapLookup reqs chatIdentifier).getD [] = recorded)
    (hkeep : ∀ a ∈ recorded, t - 60000 < a) (hlen : recorded.length < 60) :
    createChatCompletion ⟨cache, ⟨reqs, 60000, 60⟩⟩ p t (.ok v) =
      ⟨.success v,
       ⟨cache, ⟨mapSet reqs chatIdentifier (recorded ++ [t]), 60000, 60⟩⟩,
       1, true⟩ := by
  have hfilter : recorded.filter (fun time => decide (t - 60000 < time)) = recorded :=
    filter_keep_all _ recorded (fun a ha => by
      simp only [decide_eq_true_eq]
      exact hkeep a ha)
  unfold createChatCompletion
  rw [hnc]
  simp only [Bool.false_eq_true, if_false]
  unfold RateLimiter.canMakeRequest
  simp only [hlk, hfilter]
  rw [if_neg (by simp [hlen])]
  unfold RateLimiter.recordRequest
  simp only [mapLookup_mapSet_self, Option.getD_some, mapSet_mapSet]

/-- A run of non-cached, successful calls whose submission times all fall
within one window of every previously recorded timestamp, with enough budget
left, admits every call and appends all times to the window. -/
theorem runSequential_admits {V : Type} :
    ∀ (calls : List (ChatParams × Int × V)) (cache : APICache V)
      (reqs : List (String × List Int)) (recorded : List Int),
      (∀ c ∈ calls, c.1.useCache = false) →
      mapLookup reqs chatIdentifier = some recorded →
      recorded.length + calls.length ≤ 60 →
      List.Pairwise (fun a b => b - a < 60000)
        (recorded ++ calls.map (fun c => c.2.1)) →
      runSequential ⟨cache, ⟨reqs, 60000, 60⟩⟩
          (calls.map (fun c => (c.1, c.2.1, ProviderResult.ok c.2.2))) =
        (calls.map (fun c => ChatOutcome.success c.2.2),
         ⟨cache,
          ⟨mapSet reqs chatIdentifier
             (recorded ++ calls.map (fun c => c.2.1)), 60000, 60⟩⟩) := by
  intro calls
  induction calls with
  | nil =>
      intro cache reqs recorded hnc hlk hlen hpw
      simp only [List.map_nil, runSequential, List.append_nil]
      rw [mapSet_lookup_self reqs chatIdentifier recorded hlk]
  | cons c rest ih =>
      intro cache reqs recorded hnc hlk hlen hpw
      obtain ⟨p, t, v⟩ := c
      simp only [List.map_cons]
      rw [runSequential]
      have hkeep : ∀ a ∈ recorded, t - 60000 < a := by
        intro a ha
        have h := (List.pairwise_append.mp hpw).2.2 a ha t (by simp)
        omega
      have hstep := createChatCompletion_noCache_ok cache reqs p t v recorded
        (hnc (p, t, v) (by simp)) (by rw [hlk]; rfl) hkeep
        (by simp at hlen; omega)
      rw [hstep]
      have hpw2 : List.Pairwise (fun a b => b - a < 60000)
          ((recorded ++ [t]) ++ rest.map (fun c => c.2.1)) := by
        rw [List.append_assoc]
        exact hpw
      have hrest := ih cache (mapSet reqs chatIdentifier (recorded ++ [t]))
        (recorded ++ [t])
        (fun x hx => hnc x (by simp [hx]))
        (mapLookup_mapSet_self reqs chatIdentifier (recorded ++ [t]))
        (by simp at hlen ⊢; omega) hpw2
      simp only at hrest ⊢
      rw [hrest, mapSet_mapSet, List.append_assoc]
      rfl

theorem filter_drop_all {α : Type} (pred : α → Bool) (l : List α)
    (h : ∀ a ∈ l, pred a = false) : l.filter pred = [] := by
  induction l with
  | nil => rfl
  | cons head tail ih =>
      rw [List.filter_cons, if_neg (by simp [h head (by simp)])]
      exact ih (fun a ha => h a (by simp [ha]))

/-- A non-cached call finding the window full is rejected with the local
rate-limit error before anything is enqueued or the provider invoked; the
rejected call records no new timestamp. -/
theorem createChatCompletion_reject {V : Type} (cache : APICache V)
    (reqs : List (String × List Int)) (p : ChatParams) (t : Int)
    (pr : ProviderResult V) (recorded : List Int) (hnc : p.useCache = false)
    (hlk : (mapLookup reqs chatIdentifier).getD [] = recorded)
    (hkeep : ∀ a ∈ recorded, t - 60000 < a) (hlen : 60 ≤ recorded.length) :
    createChatCompletion ⟨cache, ⟨reqs, 60000, 60⟩⟩ p t pr =
      ⟨.rateLimited,
       ⟨cache, ⟨mapSet reqs chatIdentifier recorded, 60000, 60⟩⟩, 0, false⟩ := by
  have hfilter : recorded.filter (fun time => decide (t - 60000 < time)) = recorded :=
    filter_keep_all _ recorded (fun a ha => by
      simp only [decide_eq_true_eq]
      exact hkeep a ha)
  unfold createChatCompletion
  rw [hnc]
  simp only [Bool.false_eq_true, if_false]
  unfold RateLimiter.canMakeRequest
  simp only [hlk, hfilter]
  rw [if_pos (by simp; omega)]

/-- Once every recorded timestamp is older than the window, admission
resumes: the stale timestamps are pruned and the new call succeeds. -/
theorem createChatCompletion_afterWindow_ok {V : Type} (cache : APICache V)
    (reqs : List (String × List Int)) (p : ChatParams) (t : Int) (v : V)
    (recorded : List Int) (hnc : p.useCache = false)
    (hlk : (mapLookup reqs chatIdentifier).getD [] = recorded)
    (hstale : ∀ a ∈ recorded, a ≤ t - 60000) :
    createChatCompletion ⟨cache, ⟨reqs, 60000, 60⟩⟩ p t (.ok v) =
      ⟨.success v,
       ⟨cache, ⟨mapSet reqs chatIdentifier [t], 60000, 60⟩⟩, 1, true⟩ := by
  have hfilter : recorded.filter (fun time => decide (t - 60000 < time)) = [] :=
    filter_drop_all _ recorded (fun a ha => by
      simp only [decide_eq_false_iff_not, not_lt]
      exact hstale a ha)
  unfold createChatCompletion
  rw [hnc]
  simp only [Bool.false_eq_true, if_false]
  unfold RateLimiter.canMakeRequest
  simp only [hlk, hfilter]
  rw [if_neg (by simp)]
  unfold RateLimiter.recordRequest
  simp only [mapLookup_mapSet_self, Option.getD_some, mapSet_mapSet,
    List.nil_append]

/-- C1: on a fresh client with the default window (60000 ms, 60 requests),
60 sequential non-cached requests submitted within one window all succeed;
a 61st request submitted within the same window is rejected with the local
rate-limit outcome, with nothing enqueued and no provider invocation; and a
request submitted once all recorded timestamps are older than the window is
admitted again. -/
theorem rateLimiter_sixty_per_window {V : Type}
    (calls : List (ChatParams × Int × V)) (p61 p62 : ChatParams)
    (t61 t62 : Int) (pr61 : ProviderResult V) (v62 : V)
    (hsixty : calls.length = 60)
    (hnc : ∀ c ∈ calls, c.1.useCache = false)
    (h61 : p61.useCache = false) (h62 : p62.useCache = false)
    (hwin : List.Pairwise (fun a b => b - a < 60000)
      (calls.map (fun c => c.2.1) ++ [t61]))
    (hstale : ∀ a ∈ calls.map (fun c => c.2.1), a ≤ t62 - 60000) :
    (runSequential (EnhancedOpenAIClient.fresh V)
        (calls.map (fun c => (c.1, c.2.1, ProviderResult.ok c.2.2)))).1 =
      calls.map (fun c => ChatOutcome.success c.2.2) ∧
    (createChatCompletion
        (runSequential (EnhancedOpenAIClient.fresh V)
          (calls.map (fun c => (c.1, c.2.1, ProviderResult.ok c.2.2)))).2
        p61 t61 pr61).outcome = .rateLimited ∧
    (createChatCompletion
        (runSequential (EnhancedOpenAIClient.fresh V)
          (calls.map (fun c => (c.1, c.2.1, ProviderResult.ok c.2.2)))).2
        p61 t61 pr61).providerCalls = 0 ∧
    (createChatCompletion
        (runSequential (EnhancedOpenAIClient.fresh V)
          (calls.map (fun c => (c.1, c.2.1, ProviderResult.ok c.2.2)))).2
        p61 t61 pr61).enqueued = false ∧
    (createChatCompletion
        (createChatCompletion
          (runSequential (EnhancedOpenAIClient.fresh V)
            (calls.map (fun c => (c.1, c.2.1, ProviderResult.ok c.2.2)))).2
          p61 t61 pr61).client
        p62 t62 (.ok v62)).outcome = .success v62 := by
  obtain ⟨c0, rest, rfl⟩ : ∃ c0 rest, calls = c0 :: rest := by
    cases calls with
    | nil => simp at hsixty
    | cons a b => exact ⟨a, b, rfl⟩
  obtain ⟨p0, t0, v0⟩ := c0
  -- the first call, from the completely fresh limiter state
  have hstep0 := createChatCompletion_noCache_ok (APICache.empty V) [] p0 t0 v0
    [] (hnc (p0, t0, v0) (by simp)) rfl (by simp) (by simp)
  -- the remaining 59 calls
  have hlk0 : mapLookup (mapSet ([] : List (String × List Int)) chatIdentifier
      ([] ++ [t0])) chatIdentifier = some [t0] := by
    simp [mapSet, mapLookup]
  have hpw0 : List.Pairwise (fun a b => b - a < 60000)
      ([t0] ++ rest.map (fun c => c.2.1)) := by
    have h := (List.pairwise_append.mp hwin).1
    simpa using h
  have hrest := runSequential_admits rest (APICache.empty V)
    (mapSet ([] : List (String × List Int)) chatIdentifier ([] ++ [t0])) [t0]
    (fun x hx => hnc x (by simp [hx])) hlk0
    (by simp at hsixty ⊢; omega) hpw0
  have hrun : runSequential (EnhancedOpenAIClient.fresh V)
      (((p0, t0, v0) :: rest).map (fun c => (c.1, c.2.1, ProviderResult.ok c.2.2))) =
      ((ChatOutcome.success v0) :: rest.map (fun c => ChatOutcome.success c.2.2),
       ⟨APICache.empty V,
        ⟨[(chatIdentifier, t0 :: rest.map (fun c => c.2.1))], 60000, 60⟩⟩) := by
    simp only [List.map_cons]
    rw [runSequential]
    show (let r := createChatCompletion (EnhancedOpenAIClient.fresh V) p0 t0
            (ProviderResult.ok v0)
          let tailRun := runSequential r.client
            (rest.map (fun c => (c.1, c.2.1, ProviderResult.ok c.2.2)))
          ((r.outcome :: tailRun.1, tailRun.2) :
            List (ChatOutcome V) × EnhancedOpenAIClient V)) = _
    rw [show (EnhancedOpenAIClient.fresh V) =
      ⟨APICache.empty V, ⟨[], 60000, 60⟩⟩ from rfl]
    rw [hstep0]
    simp only
    rw [hrest]
    simp [mapSet]
  -- the window now holds 60 timestamps, all within one window of t61
  set allTimes := t0 :: rest.map (fun c => c.2.1) with hAll
  have hlkAll : (mapLookup [(chatIdentifier, allTimes)] chatIdentifier).getD []
      = allTimes := by simp [mapLookup]
  have hkeep61 : ∀ a ∈ allTimes, t61 - 60000 < a := by
    intro a ha
    have h := (List.pairwise_append.mp hwin).2.2 a (by simpa [hAll] using ha)
      t61 (by simp)
    omega
  have hlenAll : 60 ≤ allTimes.length := by
    simp only [hAll, List.length_cons, List.length_map]
    simp at hsixty
    omega
  have hr61 := createChatCompletion_reject (APICache.empty V)
    [(chatIdentifier, allTimes)] p61 t61 pr61 allTimes h61 hlkAll hkeep61 hlenAll
  have hmapset : mapSet [(chatIdentifier, allTimes)] chatIdentifier allTimes =
      [(chatIdentifier, allTimes)] := by simp [mapSet]
  have hstale2 : ∀ a ∈ allTimes, a ≤ t62 - 60000 := by
    intro a ha
    exact hstale a (by simpa [hAll] using ha)
  have hr62 := createChatCompletion_afterWindow_ok (APICache.empty V)
    [(chatIdentifier, allTimes)] p62 t62 v62 allTimes h62 hlkAll hstale2
  refine ⟨?_, ?_, ?_, ?_, ?_⟩
  · rw [hrun]
    simp
  · rw [hrun]
    simp only
    rw [hr61]
  · rw [hrun]
    simp only
    rw [hr61]
  · rw [hrun]
    simp only
    rw [hr61]
  · rw [hrun]
    simp only
    rw [hr61]
    simp only
    rw [hmapset, hr62]

/-- Sixty identical non-cached calls at time 0 for the C1 witness. -/
def c1WitnessCalls : List (ChatParams × Int × Nat) :=
  List.replicate 60 (⟨"m", [], "t", false⟩, 0, 0)

/-- Witness for C1 at concrete inputs: 60 calls at time 0 all succeed, a 61st
call at time 0 is rate-limited with no enqueue and no provider invocation,
and a call at time 60000 (once every timestamp is a full window old) is
admitted again. -/
theorem rateLimiter_sixty_per_window_witness :
    (runSequential (EnhancedOpenAIClient.fresh Nat)
        (c1WitnessCalls.map (fun c => (c.1, c.2.1, ProviderResult.ok c.2.2)))).1 =
      c1WitnessCalls.map (fun c => ChatOutcome.success c.2.2) ∧
    (createChatCompletion
        (runSequential (EnhancedOpenAIClient.fresh Nat)
          (c1WitnessCalls.map (fun c => (c.1, c.2.1, ProviderResult.ok c.2.2)))).2
        ⟨"m", [], "t", false⟩ 0 (.ok 1)).outcome = .rateLimited ∧
    (createChatCompletion
        (runSequential (EnhancedOpenAIClient.fresh Nat)
          (c1WitnessCalls.map (fun c => (c.1, c.2.1, ProviderResult.ok c.2.2)))).2
        ⟨"m", [], "t", false⟩ 0 (.ok 1)).providerCalls = 0 ∧
    (createChatCompletion
        (runSequential (EnhancedOpenAIClient.fresh Nat)
          (c1WitnessCalls.map (fun c => (c.1, c.2.1, ProviderResult.ok c.2.2)))).2
        ⟨"m", [], "t", false⟩ 0 (.ok 1)).enqueued = false ∧
    (createChatCompletion
        (createChatCompletion
          (runSequential (EnhancedOpenAIClient.fresh Nat)
            (c1WitnessCalls.map (fun c => (c.1, c.2.1, ProviderResult.ok c.2.2)))).2
          ⟨"m", [], "t", false⟩ 0 (.ok 1)).client
        ⟨"m", [], "t", false⟩ 60000 (.ok 2)).outcome = .success 2 :=
  rateLimiter_sixty_per_window c1WitnessCalls ⟨"m", [], "t", false⟩
    ⟨"m", [], "t", false⟩ 0 60000 (.ok 1) 2
    (by decide) (by decide) (by decide) (by decide) (by decide) (by decide)

/-! ### C10: the cache key ignores roles and truncates the encoded contents -/

/-- C10: the cache key depends on the messages only through their ordered
contents (roles are ignored), distinct ordered content lists can collide
because only the first 50 characters of the base64 encoding of the joined
contents enter the key, and on such a collision the response cached for one
request is returned for the other. -/
theorem generateCacheKey_truncation_collision :
    (∀ (m1 m2 : List ChatMessage) (model temp : String),
      m1.map ChatMessage.content = m2.map ChatMessage.content →
      generateCacheKey m1 model temp = generateCacheKey m2 model temp) ∧
    (∃ m1 m2 : List ChatMessage,
      m1.map ChatMessage.content ≠ m2.map ChatMessage.content ∧
      ∀ model temp : String,
        generateCacheKey m1 model temp = generateCacheKey m2 model temp) ∧
    (∀ (V : Type) (p1 p2 : ChatParams) (v : V) (t1 t2 : Int)
      (pr2 : ProviderResult V),
      p1.useCache = true → p2.useCache = true →
      generateCacheKey p2.messages p2.model p2.temperature =
        generateCacheKey p1.messages p1.model p1.temperature →
      t2 - t1 < APICache.defaultTTL →
      (createChatCompletion
        ((createChatCompletion (EnhancedOpenAIClient.fresh V) p1 t1
          (.ok v)).client) p2 t2 pr2).outcome = .fromCache v) := by
  refine ⟨?_, ?_, ?_⟩
  · intro m1 m2 model temp h
    unfold generateCacheKey joinContents
    rw [h]
  · refine ⟨[⟨"user", List.replicate 40 97⟩],
      [⟨"user", List.replicate 39 97 ++ [98]⟩], by decide, ?_⟩
    intro model temp
    unfold generateCacheKey
    have h : String.mk ((base64Encode
        (joinContents [⟨"user", List.replicate 40 97⟩])).take 50) =
      String.mk ((base64Encode
        (joinContents [⟨"user", List.replicate 39 97 ++ [98]⟩])).take 50) := by
      decide
    rw [h]
  · intro V p1 p2 v t1 t2 pr2 h1 h2 hkey httl
    exact (fresh_call_then_hit p1 p2 v t1 t2 pr2 h1 h2 hkey httl).2.2.1

/-- Witness for C10 at concrete inputs: two message lists differing only in
role assignment share a key, two lists with different contents (equal on the
first 39 bytes) share a key, and the second request is answered from the
cache entry stored by the first. -/
theorem generateCacheKey_truncation_collision_witness :
    generateCacheKey [⟨"user", [97]⟩, ⟨"system", [98]⟩] "m" "t" =
      generateCacheKey [⟨"system", [97]⟩, ⟨"user", [98]⟩] "m" "t" ∧
    (createChatCompletion
      ((createChatCompletion (EnhancedOpenAIClient.fresh Nat)
        ⟨"m", [⟨"user", List.replicate 40 97⟩], "t", true⟩ 0 (.ok 5)).client)
      ⟨"m", [⟨"user", List.replicate 39 97 ++ [98]⟩], "t", true⟩ 10
      (.err ⟨500, "", ""⟩)).outcome = .fromCache 5 :=
  ⟨generateCacheKey_truncation_collision.1
      [⟨"user", [97]⟩, ⟨"system", [98]⟩] [⟨"system", [97]⟩, ⟨"user", [98]⟩]
      "m" "t" (by decide),
   generateCacheKey_truncation_collision.2.2 Nat
      ⟨"m", [⟨"user", List.replicate 40 97⟩], "t", true⟩
      ⟨"m", [⟨"user", List.replicate 39 97 ++ [98]⟩], "t", true⟩ 5 0 10
      (.err ⟨500, "", ""⟩) (by decide) (by decide) (by decide) (by decide)⟩

/-! ## Workflow steps and the app reducer (src/unnamed/part_004) -/

/-- Step lifecycle states used by the UI workflow tree. -/
inductive StepStatus
  | pending
  | active
  | completed
  | error
deriving DecidableEq

/-- A `WorkflowStep` record. -/
structure WorkflowStep where
  id : String
  name : String
  status : StepStatus
  dependencies : List String
  estimatedTime : String
  details : String
  agent : String
deriving DecidableEq

/-- The `UPDATE_WORKFLOW_STEP` payload: `Partial<WorkflowStep> & (id : String)`.
Absent optional fields leave the step's fields unchanged under the JS spread
`(...step, ...payload)`. -/
structure StepPatch where
  id : String
  name : Option String
  status : Option StepStatus
  dependencies : Option (List String)
  estimatedTime : Option String
  details : Option String
  agent : Option String
deriving DecidableEq

/-- The JS spread `(...step, ...payload)`. -/
def applyPatch (step : WorkflowStep) (patch : StepPatch) : WorkflowStep :=
  ⟨patch.id, patch.name.getD step.name, patch.status.getD step.status,
   patch.dependencies.getD step.dependencies,
   patch.estimatedTime.getD step.estimatedTime,
   patch.details.getD step.details, patch.agent.getD step.agent⟩

/-- The `UPDATE_WORKFLOW_STEP` case of `appReducer`: map over the workflow,
merging the payload into the step whose id matches. No validation of any
kind is performed. -/
def updateWorkflowStep (workflow : List WorkflowStep) (patch : StepPatch) :
    List WorkflowStep :=
  workflow.map (fun step => if step.id = patch.id then applyPatch step patch else step)

/-- The full `UPDATE_WORKFLOW_STEP` reducer case: the new workflow plus the
recomputed `isProcessing` flag. -/
def appReducerUpdateWorkflowStep (workflow : List WorkflowStep)
    (patch : StepPatch) : List WorkflowStep × Bool :=
  let newWorkflow := updateWorkflowStep workflow patch
  let isStillProcessing := newWorkflow.any
    (fun step => step.status == StepStatus.active || step.status == StepStatus.pending)
  let allCompleted := newWorkflow.all (fun step => step.status == StepStatus.completed)
  (newWorkflow, if allCompleted then false else isStillProcessing)

/-- C7 (amended): the reducer validates nothing. A payload whose `stepId`
does not exist leaves the workflow unchanged without signalling any error
(no `InvalidTransition` value exists anywhere in the code); a payload with a
matching id has its fields, including `status`, applied unconditionally —
any requested status is written over any current status, backward
transitions included. -/
theorem updateWorkflowStep_applies_unconditionally :
    (∀ (workflow : List WorkflowStep) (patch : StepPatch),
      patch.id ∉ workflow.map WorkflowStep.id →
      updateWorkflowStep workflow patch = workflow) ∧
    (∀ (workflow : List WorkflowStep) (patch : StepPatch) (i : Nat),
      (updateWorkflowStep workflow patch)[i]? =
        (workflow[i]?).map
          (fun step => if step.id = patch.id then applyPatch step patch else step)) ∧
    (∀ (workflow : List WorkflowStep) (patch : StepPatch) (st : StepStatus),
      patch.status = some st →
      ∀ s ∈ updateWorkflowStep workflow patch, s.id = patch.id → s.status = st) := by
  refine ⟨?_, ?_, ?_⟩
  · intro workflow patch hmem
    unfold updateWorkflowStep
    induction workflow with
    | nil => rfl
    | cons step rest ih =>
        simp only [List.map_cons, List.mem_cons] at hmem ⊢
        push_neg at hmem
        rw [if_neg (fun h => hmem.1 h.symm), ih hmem.2]
  · intro workflow patch i
    unfold updateWorkflowStep
    exact List.getElem?_map _ _ _
  · intro workflow patch st hst s hs hid
    unfold updateWorkflowStep at hs
    obtain ⟨step, hmem, heq⟩ := List.mem_map.mp hs
    by_cases hc : step.id = patch.id
    · rw [if_pos hc] at heq
      rw [← heq]
      simp [applyPatch, hst]
    · rw [if_neg hc] at heq
      rw [← heq] at hid
      exact absurd hid hc

/-- Counterexample to C7 as stated: the reducer applies the backward
transition `completed → pending` in place, and a payload naming a
nonexistent step id silently returns the workflow unchanged — neither case
fails with any `InvalidTransition` error. -/
theorem updateWorkflowStep_counterexample :
    (updateWorkflowStep [⟨"step-1", "n", .completed, [], "t", "d", "a"⟩]
        ⟨"step-1", none, some .pending, none, none, none, none⟩).map
      WorkflowStep.status = [.pending] ∧
    updateWorkflowStep [⟨"step-1", "n", .completed, [], "t", "d", "a"⟩]
        ⟨"missing", none, some .active, none, none, none, none⟩ =
      [⟨"step-1", "n", .completed, [], "t", "d", "a"⟩] := by
  refine ⟨by decide, by decide⟩

/-! ## Workflow-step creation
`MultiAgentChatHandler.createWorkflowSteps` (src/unnamed/part_004) and
`EnhancedMultiAgentChatHandler.selectOptimalAgents`
(src/components/dashboard/enhanced-chat-panel.tsx). -/

/-- The `workflowMap` table of `createWorkflowSteps` (name, time, details);
`workflowMap[key] || workflowMap.general` falls back to the general entry. -/
def workflowMapEntry (key : String) : String × String × String :=
  if key = "eda" then
    ("Analyzing Your Data", "15-30s", "Examining patterns, trends, and data quality")
  else if key = "forecasting" then
    ("Generating Forecast", "20-40s", "Creating predictions based on historical patterns")
  else if key = "whatif" then
    ("Running Scenarios", "15-25s", "Comparing different business scenarios")
  else if key = "comparative" then
    ("Comparing Performance", "15-30s", "Benchmarking and identifying gaps")
  else
    ("Processing Request", "10-20s", "Understanding and responding to your query")

/-- `(AGENTS[key] || AGENTS.general).name` for the keys of the `AGENTS`
table in src/unnamed/part_004. -/
def agentDisplayName (key : String) : String :=
  if key = "eda" then "EDA Agent"
  else if key = "forecasting" then "Forecasting Agent"
  else if key = "whatif" then "What-If Agent"
  else if key = "comparative" then "Comparative Agent"
  else "General Assistant"

/-- One step built by `createWorkflowSteps` at a given position: id
`step-(index+1)`, status `active` for index 0 and `pending` otherwise, and a
dependency on the previous step when index > 0. -/
def mkWorkflowStep (index : Nat) (key : String) : WorkflowStep :=
  let c := workflowMapEntry key
  ⟨"step-" ++ toString (index + 1), c.1,
   if index = 0 then .active else .pending,
   if 0 < index then ["step-" ++ toString index] else [],
   c.2.1, c.2.2, agentDisplayName key⟩

def createWorkflowStepsAux : List String → Nat → List WorkflowStep
  | [], _ => []
  | key :: rest, index => mkWorkflowStep index key :: createWorkflowStepsAux rest (index + 1)

/-- `MultiAgentChatHandler.createWorkflowSteps(agentKeys)`. -/
def createWorkflowSteps (agentKeys : List String) : List WorkflowStep :=
  createWorkflowStepsAux agentKeys 0

/-- Substring test on character lists: does `pat` occur contiguously? -/
def charListIncludes (pat : List Char) : List Char → Bool
  | [] => pat.isEmpty
  | c :: rest => pat.isPrefixOf (c :: rest) || charListIncludes pat rest

/-- JS `String.includes`. -/
def strIncludes (s pat : String) : Bool := charListIncludes pat.toList s.toList

/-- A JS alternation regex of literal lowercase words, tested against the
lowercased message: true iff some pattern occurs as a substring. -/
def testAny (m : String) (pats : List String) : Bool :=
  pats.any (fun p => strIncludes m p)

def onboardingPatterns : List String :=
  ["start", "begin", "help", "guide", "getting started", "onboard", "setup"]

def completePatterns : List String :=
  ["forecast", "predict", "train", "process", "complete analysis", "end to end"]

/-- The `ENHANCED_AGENTS` table in insertion order: key, name, specialty and
keywords (prompts, colors and capabilities are not consulted by the planner). -/
def enhancedAgents : List (String × String × String × List String) :=
  [("onboarding", "Onboarding Guide", "User Onboarding & Setup",
    ["start", "begin", "setup", "help", "guide", "onboard", "getting started"]),
   ("eda", "Data Explorer", "Exploratory Data Analysis",
    ["explore", "eda", "analyze", "distribution", "pattern", "correlation",
     "outlier", "statistics", "summary", "data quality"]),
   ("preprocessing", "Data Engineer", "Data Processing & Cleaning",
    ["clean", "preprocess", "prepare", "missing", "outliers", "transform",
     "normalize", "feature engineering"]),
   ("modeling", "ML Engineer", "Model Training & Selection",
    ["model", "train", "machine learning", "algorithm", "xgboost", "prophet",
     "lightgbm", "cross validation"]),
   ("forecasting", "Forecast Analyst", "Predictive Analytics & Forecasting",
    ["forecast", "predict", "future", "projection", "trend", "time series",
     "prediction intervals"]),
   ("validation", "Quality Analyst", "Model Validation & Testing",
    ["validate", "test", "accuracy", "performance", "metrics", "evaluation",
     "residuals"]),
   ("insights", "Business Analyst", "Business Insights & Strategy",
    ["insights", "business", "strategy", "impact", "recommendations",
     "opportunities", "risks"]),
   ("general", "BI Assistant", "General BI Support", [])]

/-- The double loop of the individual-agent branch: first non-`general`
agent (in table order) with a keyword contained in the message, together
with the first such keyword. -/
def firstKeywordAgent :
    List (String × String × String × List String) → String →
      Option (String × String × String × String)
  | [], _ => none
  | (key, name, specialty, keywords) :: rest, lower =>
      if key = "general" then firstKeywordAgent rest lower
      else
        match keywords.find? (fun kw => strIncludes lower kw) with
        | some kw => some (key, name, specialty, kw)
        | none => firstKeywordAgent rest lower

/-- The session-context field consulted by `selectOptimalAgents`:
`context.selectedLob?.hasData` (false when there is no selected LOB). -/
structure SelectContext where
  selectedLobHasData : Bool
deriving DecidableEq

/-- Return value of `selectOptimalAgents`. -/
structure AgentSelection where
  agents : List String
  workflow : List WorkflowStep
  reasoning : String
deriving DecidableEq

/-- The three-step onboarding workflow literal. -/
def onboardingWorkflow : List WorkflowStep :=
  [⟨"step-1", "Business Setup", .pending, [], "2m",
    "Select Business Unit and Line of Business", "Onboarding Guide"⟩,
   ⟨"step-2", "Data Upload", .pending, ["step-1"], "1m",
    "Upload your dataset for analysis", "Onboarding Guide"⟩,
   ⟨"step-3", "Analysis Planning", .pending, ["step-2"], "30s",
    "Plan your analysis workflow", "Onboarding Guide"⟩]

/-- The six-step complete-forecasting workflow literal. -/
def completeWorkflow : List WorkflowStep :=
  [⟨"step-1", "Exploratory Data Analysis", .pending, [], "45s",
    "Comprehensive statistical analysis", "Data Explorer"⟩,
   ⟨"step-2", "Data Preprocessing", .pending, ["step-1"], "30s",
    "Clean and prepare data", "Data Engineer"⟩,
   ⟨"step-3", "Model Training", .pending, ["step-2"], "2m",
    "Train multiple forecasting models", "ML Engineer"⟩,
   ⟨"step-4", "Model Validation", .pending, ["step-3"], "30s",
    "Validate model performance", "Quality Analyst"⟩,
   ⟨"step-5", "Forecast Generation", .pending, ["step-4"], "15s",
    "Generate forecasts with confidence intervals", "Forecast Analyst"⟩,
   ⟨"step-6", "Business Insights", .pending, ["step-5"], "20s",
    "Extract strategic business insights", "Business Analyst"⟩]

/-- `EnhancedMultiAgentChatHandler.selectOptimalAgents(userMessage, context)`:
onboarding branch, complete-workflow branch, individual keyword match, then
the general fallback. Every workflow literal it can return carries only
`pending` statuses. -/
def selectOptimalAgents (userMessage : String) (context : SelectContext) :
    AgentSelection :=
  let lowerMessage := userMessage.toLower
  if testAny lowerMessage onboardingPatterns && !context.selectedLobHasData then
    ⟨["onboarding"], onboardingWorkflow, "User needs onboarding guidance"⟩
  else if testAny lowerMessage completePatterns then
    ⟨["eda", "preprocessing", "modeling", "validation", "forecasting", "insights"],
     completeWorkflow, "Complete forecasting workflow requested"⟩
  else
    match firstKeywordAgent enhancedAgents lowerMessage with
    | some (key, name, specialty, kw) =>
        ⟨[key],
         [⟨"step-1", specialty, .pending, [], "30s", specialty ++ " analysis", name⟩],
         name ++ " selected for " ++ kw ++ "-related query"⟩
    | none =>
        ⟨["general"],
         [⟨"step-1", "General Assistance", .pending, [], "10s",
           "Provide general help", "BI Assistant"⟩],
         "General assistant for broad query"⟩

/-- Auxiliary: the status of each step built by `createWorkflowStepsAux`
depends only on its absolute index. -/
theorem createWorkflowStepsAux_status :
    ∀ (keys : List String) (base i : Nat) (h : i < (createWorkflowStepsAux keys base).length),
      ((createWorkflowStepsAux keys base).get ⟨i, h⟩).status =
        if base + i = 0 then .active else .pending := by
  intro keys
  induction keys with
  | nil => intro base i h; simp [createWorkflowStepsAux] at h
  | cons key rest ih =>
      intro base i h
      cases i with
      | zero => simp [createWorkflowStepsAux, mkWorkflowStep]
      | succ j =>
          have hlen : (createWorkflowStepsAux (key :: rest) base).length =
              (createWorkflowStepsAux rest (base + 1)).length + 1 := rfl
          have hlt : j < (createWorkflowStepsAux rest (base + 1)).length := by
            omega
          have hget : (createWorkflowStepsAux (key :: rest) base).get ⟨j + 1, h⟩ =
              (createWorkflowStepsAux rest (base + 1)).get ⟨j, hlt⟩ := rfl
          rw [hget, ih (base + 1) j hlt]
          have h1 : ¬(base + 1 + j = 0) := by omega
          have h2 : ¬(base + (j + 1) = 0) := by omega
          rw [if_neg h1, if_neg h2]

/-- C8 (amended): `MultiAgentChatHandler.createWorkflowSteps` sets the step
at index 0 to `active` already at creation time, with every later step
`pending`; by contrast every workflow produced by
`selectOptimalAgents` in the enhanced handler has all steps `pending`. -/
theorem workflowSteps_initial_status :
    (∀ (agentKeys : List String) (i : Nat)
      (h : i < (createWorkflowSteps agentKeys).length),
      ((createWorkflowSteps agentKeys).get ⟨i, h⟩).status =
        if i = 0 then .active else .pending) ∧
    (∀ (userMessage : String) (context : SelectContext),
      ∀ s ∈ (selectOptimalAgents userMessage context).workflow,
        s.status = .pending) := by
  constructor
  · intro agentKeys i h
    have := createWorkflowStepsAux_status agentKeys 0 i h
    simpa using this
  · intro userMessage context s hs
    unfold selectOptimalAgents at hs
    simp only at hs
    split at hs
    · simp only [onboardingWorkflow, List.mem_cons, List.not_mem_nil,
        or_false] at hs
      rcases hs with h | h | h <;> rw [h]
    · split at hs
      · revert hs
        intro hs
        simp only [completeWorkflow, List.mem_cons, List.not_mem_nil, or_false] at hs
        rcases hs with h | h | h | h | h | h <;> rw [h]
      · split at hs
        · simp only [List.mem_cons, List.not_mem_nil, or_false] at hs
          rw [hs]
        · simp only [List.mem_cons, List.not_mem_nil, or_false] at hs
          rw [hs]

/-- Counterexample to C8 as stated: a one-agent plan built by
`createWorkflowSteps` starts with its (only) step already `active`, not
`pending`. -/
theorem createWorkflowSteps_counterexample :
    (createWorkflowSteps ["eda"]).map WorkflowStep.status = [.active] := by
  decide

/-- Witness for C8 at concrete inputs: a two-agent plan from the part_004
handler is created `active`/`pending`, while the complete-analysis plan from
the enhanced handler is created all-`pending`. -/
theorem workflowSteps_initial_status_witness :
    ((createWorkflowSteps ["eda", "forecasting"]).get ⟨0, by decide⟩).status
        = .active ∧
    ((createWorkflowSteps ["eda", "forecasting"]).get ⟨1, by decide⟩).status
        = .pending ∧
    (∀ s ∈ (selectOptimalAgents "run a complete analysis" ⟨true⟩).workflow,
      s.status = .pending) :=
  ⟨workflowSteps_initial_status.1 ["eda", "forecasting"] 0 (by decide),
   workflowSteps_initial_status.1 ["eda", "forecasting"] 1 (by decide),
   workflowSteps_initial_status.2 "run a complete analysis" ⟨true⟩⟩

/-! ## The two orchestrator loops
`MultiAgentChatHandler.generateResponse` (src/unnamed/part_004) and
`EnhancedMultiAgentChatHandler.generateEnhancedResponse`
(src/components/dashboard/enhanced-chat-panel.tsx). Each loop iterates over
the selected agent keys; the provider behaviour for the step, if the step's
request is issued at all, is supplied as an `Except` value (`error` models
the awaited call throwing). Observable effects are recorded as events; a
step's `UPDATE_WORKFLOW_STEP` dispatch for id `step-(i+1)` is recorded with
its 0-based loop index `i`. -/

/-- Observable events of one orchestrator run. -/
inductive WorkflowEvent
  | stepActive (i : Nat)
  | stepCompleted (i : Nat)
  | stepError (i : Nat)
  | providerCall (i : Nat)
deriving DecidableEq

def exceptIsOk {ε α : Type} : Except ε α → Bool
  | .ok _ => true
  | .error _ => false

/-- The early-return message of `generateResponse` on any step failure. -/
def sorryConnectMessage : String :=
  "Sorry, I'm having trouble connecting right now. Please try again."

/-- The empty-response fallback of `generateResponse`. -/
def sorryEmptyMessage : String := "Sorry, I couldn't generate a response."

/-- What `generateResponse` returns (its `reportData` field models the
embedded-JSON side channel and is outside these claims). -/
structure MultiAgentResult where
  response : String
  agentType : String
  events : List WorkflowEvent
deriving DecidableEq

/-- The step loop of `MultiAgentChatHandler.generateResponse`: activate the
step, issue the provider call, and on success append the response text and
continue; on any caught error mark the step `error` and return the generic
connection message immediately, discarding the accumulated text. -/
def generateResponseLoop :
    List (String × Except APIError String) → Nat → String → String →
      MultiAgentResult
  | [], _, acc, agentType =>
      ⟨if acc.trim = "" then sorryEmptyMessage else acc.trim, agentType, []⟩
  | (agentKey, outcome) :: rest, i, acc, _ =>
      match outcome with
      | .ok aiResponse =>
          let tail := generateResponseLoop rest (i + 1) (acc ++ aiResponse ++ "\n")
            agentKey
          ⟨tail.response, tail.agentType,
           .stepActive i :: .providerCall i :: .stepCompleted i :: tail.events⟩
      | .error _ =>
          ⟨sorryConnectMessage, "general",
           [.stepActive i, .providerCall i, .stepError i]⟩

/-- `MultiAgentChatHandler.generateResponse` after agent selection: run the
step loop from the start with an empty accumulator. -/
def runGenerateResponse (steps : List (String × Except APIError String)) :
    MultiAgentResult :=
  generateResponseLoop steps 0 "" "general"

/-- `[REPORT_DATA]` (13 characters). -/
def reportStart : List Char := "[REPORT_DATA]".toList

/-- `[/REPORT_DATA]` (14 characters). -/
def reportEnd : List Char := "[/REPORT_DATA]".toList

/-- Index of the first occurrence of `pat`, if any. -/
def findPat (pat : List Char) : List Char → Option Nat
  | [] => if pat.isEmpty then some 0 else none
  | c :: rest =>
      if pat.isPrefixOf (c :: rest) then some 0
      else (findPat pat rest).map (· + 1)

/-- The single lazy-regex replacement
`aiResponse.replace(re-REPORT_DATA-block, rem)` with an empty replacement:
remove the span from the first `[REPORT_DATA]` to the next `[/REPORT_DATA]`
after it; if either marker is missing the text is unchanged. -/
def stripReportData (s : List Char) : List Char :=
  match findPat reportStart s with
  | none => s
  | some i =>
      match findPat reportEnd (s.drop (i + 13)) with
      | none => s
      | some k => s.take i ++ s.drop (i + 13 + k + 14)

/-- `ENHANCED_AGENTS[agentKey].name`. -/
def enhancedAgentName (key : String) : String :=
  ((enhancedAgents.find? (fun a => a.1 == key)).map (fun a => a.2.1)).getD ""

/-- The empty-response fallback of `generateEnhancedResponse`. -/
def apologizeMessage : String :=
  "I apologize, but I couldn't generate a complete response. Please try again."

/-- What `generateEnhancedResponse` returns: the `finalResponse` variable as
accumulated when the loop ends (`aggregate`), the returned `response` string
(trimmed, with the apology fallback when blank), the final agent type, and
the events. -/
structure EnhancedResult where
  aggregate : String
  response : String
  agentType : String
  events : List WorkflowEvent
deriving DecidableEq

/-- The step loop of `generateEnhancedResponse`: every step issues a
provider call; a success either becomes the whole response (single-agent
run) or appends a `## name` section with the `[REPORT_DATA]` block stripped;
a caught error appends a `## name` section with a warning annotation built
from the error's message — and the loop continues either way. No
`UPDATE_WORKFLOW_STEP` is dispatched anywhere in this loop. -/
def generateEnhancedLoop :
    List (String × Except APIError String) → Nat → Bool → String → String →
      String × String × List WorkflowEvent
  | [], _, _, acc, agentType => (acc, agentType, [])
  | (agentKey, outcome) :: rest, i, single, acc, _ =>
      let name := enhancedAgentName agentKey
      match outcome with
      | .ok aiResponse =>
          let acc2 :=
            if single then aiResponse
            else acc ++ "## " ++ name ++ "\n" ++
              String.mk (stripReportData aiResponse.toList) ++ "\n\n"
          let tail := generateEnhancedLoop rest (i + 1) single acc2 agentKey
          (tail.1, tail.2.1, .providerCall i :: tail.2.2)
      | .error e =>
          let acc2 := acc ++ "## " ++ name ++ "\n⚠️ " ++ e.errorText ++ "\n\n"
          let tail := generateEnhancedLoop rest (i + 1) single acc2 agentKey
          (tail.1, tail.2.1, .providerCall i :: tail.2.2)

/-- `generateEnhancedResponse` after agent selection: run the loop, then
return `finalResponse.trim()` with the apology fallback when it is blank. -/
def generateEnhancedResponse (steps : List (String × Except APIError String)) :
    EnhancedResult :=
  let single := steps.length == 1
  let r := generateEnhancedLoop steps 0 single "" "general"
  ⟨r.1, if r.1.trim = "" then apologizeMessage else r.1.trim, r.2.1, r.2.2⟩

/-- The `## agent` section appended for one step of a multi-agent enhanced
run: stripped response text on success, warning annotation on failure. -/
def enhancedBlockStr (x : String × Except APIError String) : String :=
  match x.2 with
  | .ok aiResponse =>
      "## " ++ enhancedAgentName x.1 ++ "\n" ++
        String.mk (stripReportData aiResponse.toList) ++ "\n\n"
  | .error e => "## " ++ enhancedAgentName x.1 ++ "\n⚠️ " ++ e.errorText ++ "\n\n"

/-- Events emitted for a prefix of successful steps starting at index `i`. -/
def okPrefixEvents : List (String × Except APIError String) → Nat → List WorkflowEvent
  | [], _ => []
  | _ :: rest, i =>
      .stepActive i :: .providerCall i :: .stepCompleted i :: okPrefixEvents rest (i + 1)

/-- Closed form of the part_004 loop on a script that fails after a prefix
of successes: it stops at the failing step, returning the generic message
with agent type `general`, and emits no event for any later step. -/
theorem generateResponseLoop_halt (a : String) (e : APIError)
    (post : List (String × Except APIError String)) :
    ∀ (pre : List (String × Except APIError String)) (i : Nat) (acc at0 : String),
      (∀ x ∈ pre, exceptIsOk x.2 = true) →
      generateResponseLoop (pre ++ (a, Except.error e) :: post) i acc at0 =
        ⟨sorryConnectMessage, "general",
         okPrefixEvents pre i ++
           [.stepActive (i + pre.length), .providerCall (i + pre.length),
            .stepError (i + pre.length)]⟩ := by
  intro pre
  induction pre with
  | nil =>
      intro i acc at0 hok
      rfl
  | cons head rest ih =>
      intro i acc at0 hok
      obtain ⟨key, outcome⟩ := head
      have hkOk : exceptIsOk outcome = true := hok (key, outcome) (by simp)
      obtain ⟨r, hr⟩ : ∃ r, outcome = .ok r := by
        cases outcome with
        | ok r => exact ⟨r, rfl⟩
        | error e2 => simp [exceptIsOk] at hkOk
      subst hr
      simp only [List.cons_append]
      rw [generateResponseLoop]
      simp only [okPrefixEvents, List.length_cons]
      rw [ih (i + 1) (acc ++ r ++ "\n") key (fun x hx => hok x (by simp [hx]))]
      simp only [okPrefixEvents, List.length_cons]
      have h1 : i + 1 + rest.length = i + (rest.length + 1) := by omega
      rw [h1]
      rfl

/-- No event in an all-success prefix mentions an index at or beyond the
prefix's end. -/
theorem okPrefixEvents_mem_lt :
    ∀ (pre : List (String × Except APIError String)) (i j : Nat),
      (WorkflowEvent.providerCall j ∈ okPrefixEvents pre i ∨
       WorkflowEvent.stepActive j ∈ okPrefixEvents pre i) →
      j < i + pre.length := by
  intro pre
  induction pre with
  | nil => intro i j h; simp [okPrefixEvents] at h
  | cons head rest ih =>
      intro i j h
      simp only [okPrefixEvents, List.mem_cons, List.length_cons] at h ⊢
      rcases h with (h1 | h1 | h1 | h1) | (h1 | h1 | h1 | h1)
      · simp at h1
      · simp at h1; omega
      · simp at h1
      · have := ih (i + 1) j (Or.inl h1); omega
      · simp at h1; omega
      · simp at h1
      · simp at h1
      · have := ih (i + 1) j (Or.inr h1); omega

/-- The events of the enhanced loop: one provider call per step, for every
step, regardless of successes and failures. -/
def callEvents : Nat → Nat → List WorkflowEvent
  | _, 0 => []
  | i, n + 1 => .providerCall i :: callEvents (i + 1) n

theorem generateEnhancedLoop_events :
    ∀ (steps : List (String × Except APIError String)) (i : Nat) (single : Bool)
      (acc at0 : String),
      (generateEnhancedLoop steps i single acc at0).2.2 =
        callEvents i steps.length := by
  intro steps
  induction steps with
  | nil => intro i single acc at0; rfl
  | cons head rest ih =>
      intro i single acc at0
      obtain ⟨key, outcome⟩ := head
      cases outcome with
      | ok r =>
          rw [generateEnhancedLoop]
          simp only [List.length_cons, callEvents]
          rw [ih]
      | error e =>
          rw [generateEnhancedLoop]
          simp only [List.length_cons, callEvents]
          rw [ih]

theorem callEvents_mem :
    ∀ (n i j : Nat), i ≤ j → j < i + n →
      WorkflowEvent.providerCall j ∈ callEvents i n := by
  intro n
  induction n with
  | zero => intro i j h1 h2; omega
  | succ m ih =>
      intro i j h1 h2
      rw [callEvents]
      rcases Nat.eq_or_lt_of_le h1 with heq | hlt
      · rw [heq]; simp
      · exact List.mem_cons_of_mem _ (ih (i + 1) j hlt (by omega))

/-- The `finalResponse` text accumulated by a multi-agent enhanced run: one
`## agent` section per step, in order. -/
def enhancedAggregate : List (String × Except APIError String) → String
  | [] => ""
  | x :: rest => enhancedBlockStr x ++ enhancedAggregate rest

/-- The final `finalAgentType` of the enhanced loop. -/
def lastAgentKey (at0 : String) : List (String × Except APIError String) → String
  | [] => at0
  | (a, _) :: rest => lastAgentKey a rest

/-- Closed form of the enhanced loop in the multi-agent case. -/
theorem generateEnhancedLoop_closed :
    ∀ (steps : List (String × Except APIError String)) (i : Nat) (acc at0 : String),
      generateEnhancedLoop steps i false acc at0 =
        (acc ++ enhancedAggregate steps, lastAgentKey at0 steps,
         callEvents i steps.length) := by
  intro steps
  induction steps with
  | nil =>
      intro i acc at0
      simp only [generateEnhancedLoop, enhancedAggregate, String.append_empty,
        lastAgentKey, callEvents]
  | cons head rest ih =>
      intro i acc at0
      obtain ⟨key, outcome⟩ := head
      cases outcome with
      | ok r =>
          rw [generateEnhancedLoop]
          simp only [Bool.false_eq_true, if_false, enhancedAggregate,
            enhancedBlockStr, lastAgentKey, List.length_cons, callEvents]
          rw [ih]
          simp only [String.append_assoc]
      | error e =>
          rw [generateEnhancedLoop]
          simp only [enhancedAggregate, enhancedBlockStr, lastAgentKey,
            List.length_cons, callEvents]
          rw [ih]
          simp only [String.append_assoc]

theorem enhancedAggregate_append (u v : List (String × Except APIError String)) :
    enhancedAggregate (u ++ v) = enhancedAggregate u ++ enhancedAggregate v := by
  induction u with
  | nil => simp [enhancedAggregate, String.empty_append]
  | cons x rest ih =>
      rw [show enhancedAggregate ((x :: rest) ++ v) =
        enhancedBlockStr x ++ enhancedAggregate (rest ++ v) from rfl]
      rw [ih]
      rw [show enhancedAggregate (x :: rest) =
        enhancedBlockStr x ++ enhancedAggregate rest from rfl]
      rw [String.append_assoc]

/-! ### C5: halting behaviour after a failed step -/

/-- C5 (amended): `MultiAgentChatHandler.generateResponse` halts on the
first failing step whatever its error classification — no later step is
ever transitioned to `active` and no provider request is issued for it; but
`generateEnhancedResponse` does not halt: it issues a provider request for
every step of the plan even when an earlier step failed (with `Unauthorized`
or anything else), and it transitions no step at all. -/
theorem halting_after_failure :
    (∀ (pre : List (String × Except APIError String)) (a : String)
       (e : APIError) (post : List (String × Except APIError String)),
      (∀ x ∈ pre, exceptIsOk x.2 = true) →
      ∀ j, pre.length < j →
        WorkflowEvent.providerCall j ∉
          (runGenerateResponse (pre ++ (a, Except.error e) :: post)).events ∧
        WorkflowEvent.stepActive j ∉
          (runGenerateResponse (pre ++ (a, Except.error e) :: post)).events) ∧
    (∀ (steps : List (String × Except APIError String)) (j : Nat),
      j < steps.length →
      WorkflowEvent.providerCall j ∈ (generateEnhancedResponse steps).events) := by
  constructor
  · intro pre a e post hok j hj
    have hrun : (runGenerateResponse (pre ++ (a, Except.error e) :: post)).events =
        okPrefixEvents pre 0 ++
          [.stepActive pre.length, .providerCall pre.length,
           .stepError pre.length] := by
      unfold runGenerateResponse
      rw [generateResponseLoop_halt a e post pre 0 "" "general" hok]
      simp
    rw [hrun]
    constructor
    · intro hmem
      rcases List.mem_append.mp hmem with h | h
      · have := okPrefixEvents_mem_lt pre 0 j (Or.inl h)
        omega
      · simp only [List.mem_cons, List.not_mem_nil, or_false] at h
        rcases h with h | h | h <;> simp at h
        all_goals omega
    · intro hmem
      rcases List.mem_append.mp hmem with h | h
      · have := okPrefixEvents_mem_lt pre 0 j (Or.inr h)
        omega
      · simp only [List.mem_cons, List.not_mem_nil, or_false] at h
        rcases h with h | h | h <;> simp at h
        all_goals omega
  · intro steps j hj
    have hev : (generateEnhancedResponse steps).events =
        callEvents 0 steps.length := by
      unfold generateEnhancedResponse
      simp only
      rw [generateEnhancedLoop_events]
    rw [hev]
    exact callEvents_mem steps.length 0 j (Nat.zero_le j) (by omega)

/-- Counterexample to C5 as stated: in `generateEnhancedResponse`, after the
first step fails with the `Unauthorized` (HTTP 401 / invalid API key)
classification, a provider request is still issued for the next step — the
pipeline is not halted. -/
theorem halting_after_failure_counterexample :
    WorkflowEvent.providerCall 1 ∈
      (generateEnhancedResponse
        [("eda", Except.error APIError.unauthorized),
         ("forecasting", Except.ok "B")]).events := by
  decide

/-- Witness for C5 at concrete inputs: in the part_004 handler a plan whose
second step fails emits nothing for the third step; in the enhanced handler
the same script still issues the third provider call. -/
theorem halting_after_failure_witness :
    (WorkflowEvent.providerCall 2 ∉
      (runGenerateResponse
        [("eda", Except.ok "A"),
         ("forecasting", Except.error APIError.unauthorized),
         ("insights", Except.ok "C")]).events ∧
     WorkflowEvent.stepActive 2 ∉
      (runGenerateResponse
        [("eda", Except.ok "A"),
         ("forecasting", Except.error APIError.unauthorized),
         ("insights", Except.ok "C")]).events) ∧
    WorkflowEvent.providerCall 2 ∈
      (generateEnhancedResponse
        [("eda", Except.ok "A"),
         ("forecasting", Except.error APIError.unauthorized),
         ("insights", Except.ok "C")]).events :=
  ⟨halting_after_failure.1 [("eda", Except.ok "A")] "forecasting"
      APIError.unauthorized [("insights", Except.ok "C")] (by decide) 2
      (by decide),
   halting_after_failure.2
      [("eda", Except.ok "A"),
       ("forecasting", Except.error APIError.unauthorized),
       ("insights", Except.ok "C")] 2 (by decide)⟩

/-! ### C6: aggregation of completed output around a failure -/

/-- The part_004 loop never returns an empty response string: every exit path
is either the trimmed accumulator guarded by a blank check with a fallback,
or a non-empty constant. -/
theorem generateResponseLoop_response_ne :
    ∀ (steps : List (String × Except APIError String)) (i : Nat)
      (acc at0 : String),
      (generateResponseLoop steps i acc at0).response ≠ "" := by
  intro steps
  induction steps with
  | nil =>
      intro i acc at0
      rw [generateResponseLoop]
      simp only
      split
      · decide
      · rename_i hne
        intro hcon
        exact hne hcon
  | cons head rest ih =>
      intro i acc at0
      obtain ⟨key, outcome⟩ := head
      cases outcome with
      | ok r =>
          rw [generateResponseLoop]
          exact ih (i + 1) (acc ++ r ++ "\n") key
      | error e =>
          rw [generateResponseLoop]
          show sorryConnectMessage ≠ ""
          decide

/-- C6 (amended): when a step fails, `MultiAgentChatHandler.generateResponse`
returns the generic connection message with agent type `general`, discarding
every completed step's output; `generateEnhancedResponse`, by contrast,
keeps an aggregate containing each completed step's section and a warning
annotation naming each failed step's agent and error, the returned response
being that aggregate trimmed (with an apology fallback when it is blank),
and the returned response is never the empty string in either handler. -/
theorem aggregated_result_on_failure :
    (∀ (pre : List (String × Except APIError String)) (a : String)
       (e : APIError) (post : List (String × Except APIError String)),
      (∀ x ∈ pre, exceptIsOk x.2 = true) →
      (runGenerateResponse (pre ++ (a, Except.error e) :: post)).response =
          sorryConnectMessage ∧
      (runGenerateResponse (pre ++ (a, Except.error e) :: post)).agentType =
          "general") ∧
    (∀ (steps : List (String × Except APIError String)), 1 < steps.length →
      (∀ x ∈ steps, List.IsInfix (enhancedBlockStr x).toList
        (generateEnhancedResponse steps).aggregate.toList) ∧
      (generateEnhancedResponse steps).response =
        (if (generateEnhancedResponse steps).aggregate.trim = ""
         then apologizeMessage
         else (generateEnhancedResponse steps).aggregate.trim)) ∧
    (∀ (steps : List (String × Except APIError String)),
      (generateEnhancedResponse steps).response ≠ "" ∧
      (runGenerateResponse steps).response ≠ "") := by
  refine ⟨?_, ?_, ?_⟩
  · intro pre a e post hok
    unfold runGenerateResponse
    rw [generateResponseLoop_halt a e post pre 0 "" "general" hok]
    exact ⟨rfl, rfl⟩
  · intro steps hlen
    have hne1 : steps.length ≠ 1 := by omega
    have hsingle : (steps.length == 1) = false := by
      cases hb : steps.length == 1
      · rfl
      · exact absurd (eq_of_beq hb) hne1
    have hagg : (generateEnhancedResponse steps).aggregate =
        enhancedAggregate steps := by
      unfold generateEnhancedResponse
      simp only [hsingle]
      rw [generateEnhancedLoop_closed steps 0 "" "general"]
      rw [String.empty_append]
    constructor
    · intro x hx
      obtain ⟨l1, l2, hsplit⟩ := List.append_of_mem hx
      rw [hagg, hsplit, enhancedAggregate_append]
      rw [show enhancedAggregate (x :: l2) =
        enhancedBlockStr x ++ enhancedAggregate l2 from rfl]
      refine ⟨(enhancedAggregate l1).toList, (enhancedAggregate l2).toList, ?_⟩
      rw [← String.data_append, ← String.data_append]
      rw [String.append_assoc]
      rfl
    · rfl
  · intro steps
    constructor
    · unfold generateEnhancedResponse
      simp only
      split
      · decide
      · rename_i hne
        intro hcon
        exact hne hcon
    · exact generateResponseLoop_response_ne steps 0 "" "general"

/-- Counterexample to C6 as stated: in `MultiAgentChatHandler.generateResponse`,
when the first step completes with output "EDA RESULT" and the second step
fails, the value returned to the caller is the generic connection message —
the completed step's output does not occur anywhere in it, so completed
output is silently discarded. -/
theorem aggregated_result_counterexample :
    (runGenerateResponse [("eda", Except.ok "EDA RESULT"),
        ("forecasting", Except.error APIError.providerUnavailable)]).response =
      sorryConnectMessage ∧
    charListIncludes "EDA RESULT".toList
      (runGenerateResponse [("eda", Except.ok "EDA RESULT"),
        ("forecasting", Except.error APIError.providerUnavailable)]).response.toList
      = false := by
  refine ⟨by decide, by decide⟩

/-- Witness for C6 at concrete inputs: the part_004 handler returns the
generic message after a failure; the enhanced handler's aggregate contains
both the completed section and the failure annotation, and its returned
response is the trimmed aggregate. -/
theorem aggregated_result_on_failure_witness :
    (runGenerateResponse [("eda", Except.ok "A"),
        ("forecasting", Except.error APIError.unauthorized)]).response =
      sorryConnectMessage ∧
    List.IsInfix
      (enhancedBlockStr ("eda", Except.ok "A")).toList
      (generateEnhancedResponse [("eda", Except.ok "A"),
        ("forecasting", Except.error APIError.unauthorized)]).aggregate.toList ∧
    List.IsInfix
      (enhancedBlockStr ("forecasting", Except.error APIError.unauthorized)).toList
      (generateEnhancedResponse [("eda", Except.ok "A"),
        ("forecasting", Except.error APIError.unauthorized)]).aggregate.toList ∧
    (generateEnhancedResponse [("eda", Except.ok "A"),
        ("forecasting", Except.error APIError.unauthorized)]).response ≠ "" :=
  ⟨(aggregated_result_on_failure.1 [("eda", Except.ok "A")] "forecasting"
      APIError.unauthorized [] (by decide)).1,
   (aggregated_result_on_failure.2.1 [("eda", Except.ok "A"),
      ("forecasting", Except.error APIError.unauthorized)] (by decide)).1
      ("eda", Except.ok "A") (by simp),
   (aggregated_result_on_failure.2.1 [("eda", Except.ok "A"),
      ("forecasting", Except.error APIError.unauthorized)] (by decide)).1
      ("forecasting", Except.error APIError.unauthorized) (by simp),
   (aggregated_result_on_failure.2.2 [("eda", Except.ok "A"),
      ("forecasting", Except.error APIError.unauthorized)]).1⟩

end ChatbotSoc
